import Mathlib

/-!
Shallow embedding of the TypeScript tutorial snippets of this repository,
together with proofs about them.

JavaScript numbers are modelled as extended rationals: a rational value,
or one of the special values NaN, Infinity, -Infinity.  Comparison and
arithmetic follow the JavaScript (IEEE-754 double) semantics on the
special values (every comparison with NaN is false, Infinity + -Infinity
is NaN, ...), and addition models overflow: an exact sum whose magnitude
reaches the IEEE-754 round-to-nearest overflow threshold 2^1024 - 2^970
becomes the corresponding infinity, exactly as a double addition does.
Finite results are kept exact (rounding of in-range sums is not
modelled); this matters to none of the claims, which compare against 0.5
and small integer literals, all exactly representable.
-/

/-- A JavaScript number: NaN, +Infinity, -Infinity, or a finite value. -/
inductive JSNum where
  | nan : JSNum
  | inf : JSNum
  | ninf : JSNum
  | fin (q : ℚ) : JSNum
deriving DecidableEq

namespace JSNum

/-- JavaScript `<` on numbers: any comparison involving NaN is false. -/
def lt : JSNum → JSNum → Bool
  | nan, _ => false
  | _, nan => false
  | ninf, ninf => false
  | ninf, _ => true
  | _, ninf => false
  | inf, _ => false
  | fin _, inf => true
  | fin a, fin b => decide (a < b)

/-- JavaScript `>` on numbers: `a > b` holds exactly when `b < a`. -/
def gt (a b : JSNum) : Bool := lt b a

/-- The IEEE-754 double overflow threshold: under round-to-nearest-even,
an exact result of magnitude at least `2 ^ 1024 - 2 ^ 970` rounds to the
corresponding infinity (anything strictly smaller rounds to a finite
double, at most `maxValue = (2 ^ 53 - 1) * 2 ^ 971`). -/
def overflowThreshold : ℚ := 2 ^ 1024 - 2 ^ 970

/-- JavaScript addition on numbers, with IEEE-754 double overflow: a
finite sum whose exact value reaches the overflow threshold becomes the
corresponding infinity.  In-range sums are kept exact. -/
def add : JSNum → JSNum → JSNum
  | nan, _ => nan
  | _, nan => nan
  | inf, ninf => nan
  | ninf, inf => nan
  | inf, _ => inf
  | _, inf => inf
  | ninf, _ => ninf
  | _, ninf => ninf
  | fin a, fin b =>
    if overflowThreshold ≤ a + b then inf
    else if a + b ≤ -overflowThreshold then ninf
    else fin (a + b)

/-- JavaScript unary minus on numbers. -/
def neg : JSNum → JSNum
  | nan => nan
  | inf => ninf
  | ninf => inf
  | fin a => fin (-a)

/-- JavaScript subtraction on numbers. -/
def sub (a b : JSNum) : JSNum := a.add b.neg

/-- JavaScript `Number.isFinite`. -/
def isFinite : JSNum → Bool
  | fin _ => true
  | _ => false

end JSNum

/-!
`class BankOfKigali` from the source: two private fields `_accountBalance`
and `_loanBalance`, both initialised to 0; getters; setters
`accountBalance`, `loanBalance`, `deposit`, `withdraw`.  The setters
receive `number | string` and first apply `Number(...)`; we model the
argument as the `JSNum` that conversion produced.  A setter either
mutates the object and returns normally, or throws.  Mutation is modelled
by returning the new object state; a thrown error is the accompanying
`Option String` (the `Error` message), and `console.log` output in
`withdraw` is recorded as a `WithdrawOutcome`.
-/

structure BankOfKigali where
  _accountBalance : JSNum
  _loanBalance : JSNum
deriving DecidableEq

namespace BankOfKigali

/-- The freshly-constructed object: both fields initialised to `0`. -/
def init : BankOfKigali := ⟨.fin 0, .fin 0⟩

/-- Getter `accountBalance`. -/
def accountBalance (b : BankOfKigali) : JSNum := b._accountBalance

/-- Getter `loanBalance`. -/
def loanBalance (b : BankOfKigali) : JSNum := b._loanBalance

/-- Setter `accountBalance`: assigns when `Number.isFinite(balance)`, else throws. -/
def setAccountBalance (b : BankOfKigali) (newAccountBalance : JSNum) :
    BankOfKigali × Option String :=
  let balance := newAccountBalance
  if balance.isFinite then ({ b with _accountBalance := balance }, none)
  else (b, some "Number is not finite and invalid ...")

/-- Setter `loanBalance`: assigns when `Number.isFinite(balance)`, else throws. -/
def setLoanBalance (b : BankOfKigali) (newLoanBalance : JSNum) :
    BankOfKigali × Option String :=
  let balance := newLoanBalance
  if balance.isFinite then ({ b with _loanBalance := balance }, none)
  else (b, some "Number is not finite and invalid ...")

/-- Setter `deposit`: throws on a negative amount, adds a finite amount to
`_accountBalance`, throws on a non-finite amount. -/
def deposit (b : BankOfKigali) (amount : JSNum) : BankOfKigali × Option String :=
  let balance := amount
  if balance.lt (.fin 0) then (b, some "Amount should be positive")
  else if balance.isFinite then
    ({ b with _accountBalance := b._accountBalance.add balance }, none)
  else (b, some "Number is not finite and invalid ...")

/-- What the `withdraw` setter did: which `console.log` branch ran, a
successful withdrawal, a fall-through with no branch taken, or an error
thrown by the `accountBalance` setter invoked by `this.accountBalance -= balance`. -/
inductive WithdrawOutcome where
  | logNegative : WithdrawOutcome
  | logInsufficient : WithdrawOutcome
  | success : WithdrawOutcome
  | silent : WithdrawOutcome
  | threw (msg : String) : WithdrawOutcome
deriving DecidableEq

/-- Setter `withdraw`: `if (balance < 0)` log, `else if (balance > accountBalance)`
log, `else if (balance < accountBalance)` do `this.accountBalance -= balance`
(which goes through the `accountBalance` setter), else nothing. -/
def withdraw (b : BankOfKigali) (amount : JSNum) : BankOfKigali × WithdrawOutcome :=
  let balance := amount
  if balance.lt (.fin 0) then (b, .logNegative)
  else if b.accountBalance.lt balance then (b, .logInsufficient)
  else if balance.lt b.accountBalance then
    match b.setAccountBalance (b.accountBalance.sub balance) with
    | (b2, none) => (b2, .success)
    | (b2, some e) => (b2, .threw e)
  else (b, .silent)

end BankOfKigali

/-- One invocation of a `BankOfKigali` mutator, with its (already
`Number`-converted) argument. -/
inductive BankOp where
  | setAcct (n : JSNum) : BankOp
  | setLoan (n : JSNum) : BankOp
  | deposit (n : JSNum) : BankOp
  | withdraw (n : JSNum) : BankOp

namespace BankOfKigali

/-- Run one operation: the state afterwards, and the thrown error if any. -/
def step (b : BankOfKigali) : BankOp → BankOfKigali × Option String
  | .setAcct n => b.setAccountBalance n
  | .setLoan n => b.setLoanBalance n
  | .deposit n => b.deposit n
  | .withdraw n =>
    match b.withdraw n with
    | (b2, .threw e) => (b2, some e)
    | (b2, _) => (b2, none)

/-- Run a sequence of operations from a state; a thrown error is caught by
the (modelled) caller and the next operation runs on the resulting state. -/
def run : List BankOp → BankOfKigali → BankOfKigali
  | [], b => b
  | op :: ops, b => run ops (b.step op).1

end BankOfKigali

/-!
`class BankAccount` from the source (the visibility-modifiers article):
one private field `_balance = 0`, a `balance` getter, and `deposit` /
`withdraw` setters that `console.log` a complaint on invalid input and
never throw.  The logged message is returned alongside the new state.
-/

structure BankAccount where
  _balance : ℚ
deriving DecidableEq

namespace BankAccount

/-- Setter `withdraw`: logs on `amount <= 0`, logs on `amount > _balance`,
otherwise subtracts.  No code path throws. -/
def withdraw (b : BankAccount) (amount : ℚ) : BankAccount × Option String :=
  if amount ≤ 0 then (b, some "Withdrawal must be positive.")
  else if b._balance < amount then (b, some "Insufficient funds.")
  else ({ _balance := b._balance - amount }, none)

end BankAccount

/-!
The Promise demos.  A settled promise is modelled as
`Except String String`: `.ok msg` for a promise resolved with `msg`,
`.error msg` for a promise rejected with `new Error(msg)`.
`Math.random()` is a parameter: the drawn number.
-/

/-- Promise `examplePromise`: resolves when the drawn `random_num` is `> 0.5`,
rejects otherwise. -/
def examplePromise (random_num : ℚ) : Except String String :=
  if random_num > 0.5 then .ok "The Promise resolved successfully"
  else .error "The promises failed to resolve.......! try to handle the error!"

/-- The `.then` handler of a settled promise runs exactly on `.ok`. -/
def thenRuns (p : Except String String) : Bool :=
  match p with
  | .ok _ => true
  | .error _ => false

/-- The `.catch` handler of a settled promise runs exactly on `.error`. -/
def catchRuns (p : Except String String) : Bool :=
  match p with
  | .ok _ => false
  | .error _ => true

/-- Promise `promise_1`: the `setTimeout` callback always calls `resolve`. -/
def promise_1 : Except String String := .ok "Promise 1 resoved successfully"

/-- Promise `promise_2`: the `setTimeout` callback always calls `resolve`. -/
def promise_2 : Except String String := .ok "Promise 2 resolved Now!"

/-- Promise `promise_3`: resolves when its drawn `randomNumber` is `> 0.5`,
rejects with an `Error` otherwise. -/
def promise_3 (randomNumber : ℚ) : Except String String :=
  if randomNumber > 0.5 then .ok "Promise 3 resolves successfully "
  else .error "There is Error resolving the promse Three!!"

/-- Model of `Promise.all` on a list of settled promises: resolves with the list of
values, in order, when all resolve; rejects with the (first) rejection
reason when some promise rejects. -/
def promiseAll : List (Except String String) → Except String (List String)
  | [] => .ok []
  | p :: ps =>
    match p with
    | .error e => .error e
    | .ok v =>
      match promiseAll ps with
      | .ok vs => .ok (v :: vs)
      | .error e => .error e

/-- A settled aggregate promise is rejected exactly on `.error`. -/
def aggregateRejected (p : Except String (List String)) : Bool :=
  match p with
  | .ok _ => false
  | .error _ => true

/-!
`class Stack<T>` from the source: a private `items: T[]`; `push` appends
to the end of `items`; `pop` removes and returns the last element
(`undefined` on an empty array); `peek` reads `items[items.length - 1]`
without mutating; `isEmpty` tests `items.length === 0`.  `undefined` is
`Option.none`; methods that mutate return the new stack.
-/

structure Stack (T : Type) where
  items : List T
deriving DecidableEq

namespace Stack

/-- Method `push(item)`: `this.items.push(item)` appends at the end. -/
def push (s : Stack T) (item : T) : Stack T := ⟨s.items ++ [item]⟩

/-- Method `pop()`: `this.items.pop()` removes and returns the last element,
`undefined` when the array is empty. -/
def pop (s : Stack T) : Option T × Stack T := (s.items.getLast?, ⟨s.items.dropLast⟩)

/-- Method `peek()`: reads `this.items[this.items.length - 1]` and mutates nothing. -/
def peek (s : Stack T) : Option T × Stack T := (s.items.getLast?, s)

/-- Method `isEmpty()`: `this.items.length === 0`. -/
def isEmpty (s : Stack T) : Bool := s.items.length == 0

end Stack

/-- One method call on a `Stack`. -/
inductive StackOp (T : Type) where
  | push (x : T) : StackOp T
  | pop : StackOp T
  | peek : StackOp T

/-- Run a sequence of stack method calls, counting pushes and successful
pops (pops that returned an element rather than `undefined`). -/
def Stack.runOps : List (StackOp T) → Stack T → Nat → Nat → Stack T × Nat × Nat
  | [], s, pushes, pops => (s, pushes, pops)
  | .push x :: ops, s, pushes, pops => Stack.runOps ops (s.push x) (pushes + 1) pops
  | .pop :: ops, s, pushes, pops =>
    let r := s.pop
    Stack.runOps ops r.2 pushes (if r.1.isSome then pops + 1 else pops)
  | .peek :: ops, s, pushes, pops => Stack.runOps ops (s.peek).2 pushes pops

/-!
`String.prototype.customPadStart`.  Strings are lists of characters;
`targetLength` is a natural number (the demo only passes naturals).
`needed <= 0` is `targetLength <= str.length`.  The `while` loop is given
`needed` units of fuel: each iteration appends `padString`, so with a
non-empty `padString` at most `needed` iterations ever run and the fuel
is never exhausted; with an empty `padString` the source loops forever
(the model then returns the accumulator, a divergence noted where used).
-/

/-- The `while (repeated.length < needed) repeated += padString` loop. -/
def padLoop (padString : List Char) (needed : Nat) : Nat → List Char → List Char
  | 0, repeated => repeated
  | fuel + 1, repeated =>
    if repeated.length < needed then padLoop padString needed fuel (repeated ++ padString)
    else repeated

/-- Method `customPadStart(targetLength, padString)` on receiver `str`: return
`str` when `needed <= 0`, else build `repeated` and return
`repeated.slice(0, needed) + str`. -/
def customPadStart (str : List Char) (targetLength : Nat) (padString : List Char) :
    List Char :=
  let needed := targetLength - str.length
  if targetLength ≤ str.length then str
  else (padLoop padString needed needed []).take needed ++ str

/-!
Source-text embeddings for the line-count claim: the verbatim lines of
each class block, from the opening `class ...` line to its closing brace.
Braces are written with hex escapes and apostrophes as hex escapes; every
other character is verbatim.
-/

/-- Verbatim source lines of class PermissionManager, lines 108-124 of class-and-inhertances-overriding.md (17 lines). -/
def permissionManagerSource : List String :=
  [ "class PermissionManager \x7b",
   "  // Allow any string property that is either a boolean or a function returning a boolean",
   "  [permissionName: string]: boolean | ((name: string) => boolean);",
   "",
   "  // This method checks if a given permission is allowed",
   "  verifyPermission(permission: string): boolean \x7b",
   "    const value = this[permission]; // Try to get the value from the class using the permission name",
   "",
   "    // If the value is a function, we call it",
   "    if (typeof value === \"function\") \x7b",
   "      return value(permission);",
   "    \x7d",
   "",
   "    // If the value is a boolean (true or false), just return it",
   "    return !!value; // If it\x27s undefined, return false",
   "  \x7d",
   "\x7d"]

/-- Verbatim source lines of abstract class Vehicle, lines 214-236 of Break-Point-browser_DevTool.md (23 lines). -/
def vehicleSource : List String :=
  [ "abstract class Vehicle \x7b",
   "  // Concrete properties (all vehicles have these)",
   "  protected id: string;",
   "  protected currentLocation: string;",
   "  protected status: \x27available\x27 | \x27in-transit\x27 | \x27maintenance\x27;",
   "",
   "  constructor(id: string, initialLocation: string) \x7b",
   "    this.id = id;",
   "    this.currentLocation = initialLocation;",
   "    this.status = \x27available\x27;",
   "  \x7d",
   "",
   "  // Concrete method (common implementation for all vehicles)",
   "  public getStatus(): string \x7b",
   "    return `Vehicle $\x7bthis.id\x7d is currently $\x7bthis.status\x7d at $\x7bthis.currentLocation\x7d`;",
   "  \x7d",
   "",
   "  // Abstract method (each vehicle must implement its own version)",
   "  public abstract moveTo(destination: string): void;",
   "",
   "  // Another abstract method",
   "  public abstract calculateFuelEfficiency(): number;",
   "\x7d"]

/-- Verbatim source lines of class DeliveryTruck, lines 246-278 of Break-Point-browser_DevTool.md (33 lines). -/
def deliveryTruckSource : List String :=
  [ "class DeliveryTruck extends Vehicle \x7b",
   "  private cargoCapacity: number;",
   "  private currentCargo: number = 0;",
   "",
   "  constructor(id: string, location: string, capacity: number) \x7b",
   "    super(id, location);",
   "    this.cargoCapacity = capacity;",
   "  \x7d",
   "",
   "  // Implementing the abstract method specifically for trucks",
   "  public moveTo(destination: string): void \x7b",
   "    console.log(`Truck $\x7bthis.id\x7d is now driving from $\x7bthis.currentLocation\x7d to $\x7bdestination\x7d`);",
   "    this.status = \x27in-transit\x27;",
   "    this.currentLocation = destination;",
   "    this.status = \x27available\x27;",
   "  \x7d",
   "",
   "  // Specific implementation for trucks",
   "  public calculateFuelEfficiency(): number \x7b",
   "    // Trucks are less efficient when fully loaded",
   "    const baseEfficiency = 8.0; // miles per gallon",
   "    const loadFactor = 1 - (this.currentCargo / this.cargoCapacity) * 0.3;",
   "    return baseEfficiency * loadFactor;",
   "  \x7d",
   "",
   "  // Truck-specific method",
   "  public loadCargo(weight: number): void \x7b",
   "    if (this.currentCargo + weight > this.cargoCapacity) \x7b",
   "      throw new Error(\x27Exceeds cargo capacity\x27);",
   "    \x7d",
   "    this.currentCargo += weight;",
   "  \x7d",
   "\x7d"]

/-- Verbatim source lines of class DeliveryDrone, lines 280-312 of Break-Point-browser_DevTool.md (33 lines). -/
def deliveryDroneSource : List String :=
  [ "class DeliveryDrone extends Vehicle \x7b",
   "  private maxAltitude: number;",
   "  private currentAltitude: number = 0;",
   "",
   "  constructor(id: string, location: string, maxAlt: number) \x7b",
   "    super(id, location);",
   "    this.maxAltitude = maxAlt;",
   "  \x7d",
   "",
   "  // Implementing the abstract method specifically for drones",
   "  public moveTo(destination: string): void \x7b",
   "    console.log(`Drone $\x7bthis.id\x7d is now flying from $\x7bthis.currentLocation\x7d to $\x7bdestination\x7d`);",
   "    this.status = \x27in-transit\x27;",
   "    this.currentLocation = destination;",
   "    this.status = \x27available\x27;",
   "  \x7d",
   "",
   "  // Specific implementation for drones",
   "  public calculateFuelEfficiency(): number \x7b",
   "    // Drones are more efficient at optimal altitude",
   "    const optimalAltitude = this.maxAltitude * 0.7;",
   "    const altitudeFactor = 1 - Math.abs(this.currentAltitude - optimalAltitude) / optimalAltitude * 0.5;",
   "    return 15.0 * altitudeFactor; // miles per charge",
   "  \x7d",
   "",
   "  // Drone-specific method",
   "  public ascend(height: number): void \x7b",
   "    if (this.currentAltitude + height > this.maxAltitude) \x7b",
   "      throw new Error(\x27Exceeds maximum altitude\x27);",
   "    \x7d",
   "    this.currentAltitude += height;",
   "  \x7d",
   "\x7d"]

/-- Verbatim source lines of class FleetManager, lines 322-341 of Break-Point-browser_DevTool.md (20 lines). -/
def fleetManagerSource : List String :=
  [ "class FleetManager \x7b",
   "  private vehicles: Vehicle[] = [];",
   "",
   "  public addVehicle(vehicle: Vehicle): void \x7b",
   "    this.vehicles.push(vehicle);",
   "  \x7d",
   "",
   "  public dispatchAllTo(destination: string): void \x7b",
   "    for (const vehicle of this.vehicles) \x7b",
   "      if (vehicle.getStatus().includes(\x27available\x27)) \x7b",
   "        vehicle.moveTo(destination);",
   "        console.log(`Estimated efficiency: $\x7bvehicle.calculateFuelEfficiency()\x7d units per mile`);",
   "      \x7d",
   "    \x7d",
   "  \x7d",
   "",
   "  public generateFleetReport(): string \x7b",
   "    return this.vehicles.map(vehicle => vehicle.getStatus()).join(\x27\\n\x27);",
   "  \x7d",
   "\x7d"]

/-- Verbatim source lines of class Stack, lines 274-292 of the generics article (19 lines). -/
def stackSource : List String :=
  [ "class Stack<T> \x7b",
   "  private items: T[] = [];",
   "",
   "  push(item: T): void \x7b",
   "    this.items.push(item); //  push method on the internal array (this.items), not calling itself.",
   "  \x7d",
   "",
   "  pop(): T | undefined \x7b",
   "    return this.items.pop();",
   "  \x7d",
   "",
   "  peek(): T | undefined \x7b",
   "    return this.items[this.items.length - 1];",
   "  \x7d",
   "",
   "  isEmpty(): boolean \x7b",
   "    return this.items.length === 0;",
   "  \x7d",
   "\x7d"]

/-!
Theorems.
-/

theorem JSNum.ne_nan_of_isFinite {x : JSNum} (h : x.isFinite = true) : x ≠ .nan := by
  cases x <;> simp_all [JSNum.isFinite]

theorem JSNum.add_ne_nan {x y : JSNum} (hx : x ≠ .nan) (hy : y.isFinite = true) :
    x.add y ≠ .nan := by
  cases x with
  | nan => exact absurd rfl hx
  | inf => cases y <;> simp_all [JSNum.isFinite, JSNum.add]
  | ninf => cases y <;> simp_all [JSNum.isFinite, JSNum.add]
  | fin a =>
    cases y with
    | fin b =>
      simp only [JSNum.add]
      split
      · simp
      · split <;> simp
    | nan => simp [JSNum.isFinite] at hy
    | inf => simp [JSNum.isFinite] at hy
    | ninf => simp [JSNum.isFinite] at hy

/-- Claim C3: `examplePromise` resolves with the success message exactly
when the drawn random number is greater than 0.5, and rejects with the
`Error` in every other case, so exactly one of the `.then` and `.catch`
handlers runs. -/
theorem examplePromise_settles (r : ℚ) :
    (examplePromise r = .ok "The Promise resolved successfully" ↔ r > 0.5)
    ∧ (examplePromise r
        = .error "The promises failed to resolve.......! try to handle the error!"
        ↔ ¬r > 0.5)
    ∧ catchRuns (examplePromise r) = !thenRuns (examplePromise r) := by
  by_cases h : r > 0.5 <;> simp [examplePromise, h, thenRuns, catchRuns]

/-- Claim C4: the `Promise.all` demo rejects exactly when `promise_3`
rejects, i.e. exactly when its drawn random number is at most 0.5
(`promise_1` and `promise_2` always resolve); when all three resolve the
aggregated result is the three messages in order. -/
theorem promiseAll_demo (r : ℚ) :
    (promiseAll [promise_1, promise_2, promise_3 r]
      = .ok ["Promise 1 resoved successfully", "Promise 2 resolved Now!",
             "Promise 3 resolves successfully "] ↔ r > 0.5)
    ∧ (aggregateRejected (promiseAll [promise_1, promise_2, promise_3 r]) = true
        ↔ catchRuns (promise_3 r) = true)
    ∧ (catchRuns (promise_3 r) = true ↔ r ≤ 0.5) := by
  by_cases h : r > 0.5 <;>
    simp [promiseAll, promise_1, promise_2, promise_3, aggregateRejected, catchRuns, h,
      le_of_not_lt, not_le]

/-- Claim C2 counterexample: invoking `BankOfKigali.withdraw` with the
negative amount `-1` completes without any exception — the negative
branch only runs `console.log` — so the claim that every invalid amount
raises an exception is false. -/
theorem withdraw_negative_completes :
    BankOfKigali.init.withdraw (.fin (-1)) = (BankOfKigali.init, .logNegative)
    ∧ (BankOfKigali.init.step (BankOp.withdraw (.fin (-1)))).2 = none := by
  exact ⟨by decide, by decide⟩

/-- Claim C2 amended: for every negative amount, and every amount
exceeding the current balance, both `withdraw` setters complete without
throwing: they log a complaint (`console.log`) and leave the state
unchanged. -/
theorem withdraw_invalid_logs :
    (∀ (b : BankOfKigali) (a : JSNum),
      a.lt (.fin 0) = true ∨ b.accountBalance.lt a = true →
      (b.withdraw a).1 = b
        ∧ ((b.withdraw a).2 = .logNegative ∨ (b.withdraw a).2 = .logInsufficient))
    ∧ (∀ (b : BankAccount) (amount : ℚ),
      amount < 0 ∨ b._balance < amount →
      (b.withdraw amount).1 = b ∧ ((b.withdraw amount).2).isSome = true) := by
  constructor
  · intro b a h
    by_cases h0 : a.lt (.fin 0) = true
    · simp [BankOfKigali.withdraw, h0]
    · rcases h with h | h
      · exact absurd h h0
      · simp [BankOfKigali.withdraw, h0, h]
  · intro b amount h
    by_cases h0 : amount ≤ 0
    · simp [BankAccount.withdraw, h0]
    · have h2 : b._balance < amount := by
        rcases h with h | h
        · exact absurd (le_of_lt h) h0
        · exact h
      simp [BankAccount.withdraw, h0, h2]

/-- Claim C2 witness for the amended theorem: concrete instances, one per
class, with the hypotheses discharged by computation. -/
theorem withdraw_invalid_logs_witness :
    ((BankOfKigali.init.withdraw (.fin (-3))).1 = BankOfKigali.init
      ∧ ((BankOfKigali.init.withdraw (.fin (-3))).2 = .logNegative
          ∨ (BankOfKigali.init.withdraw (.fin (-3))).2 = .logInsufficient))
    ∧ (((BankAccount.mk 0).withdraw 7).1 = BankAccount.mk 0
        ∧ (((BankAccount.mk 0).withdraw 7).2).isSome = true) :=
  ⟨withdraw_invalid_logs.1 BankOfKigali.init (.fin (-3)) (Or.inl (by decide)),
   withdraw_invalid_logs.2 (BankAccount.mk 0) 7 (Or.inr (by norm_num))⟩

/-- Claim C6: calling `BankOfKigali.withdraw` with a non-negative amount
exactly equal to the current account balance takes no branch: the
comparisons are strict, so the state is unchanged, nothing is withdrawn,
nothing is logged, and no error is raised. -/
theorem withdraw_equal_balance (q : ℚ) (l : JSNum) (h : 0 ≤ q) :
    BankOfKigali.withdraw ⟨.fin q, l⟩ (.fin q) = (⟨.fin q, l⟩, .silent) := by
  simp [BankOfKigali.withdraw, BankOfKigali.accountBalance, JSNum.lt, not_lt.2 h]

/-- Claim C6 witness: the theorem at balance 5, amount 5. -/
theorem withdraw_equal_balance_witness :
    BankOfKigali.withdraw ⟨.fin 5, .fin 0⟩ (.fin 5) = (⟨.fin 5, .fin 0⟩, .silent) :=
  withdraw_equal_balance 5 (.fin 0) (by norm_num)

theorem step_preserves_ne_nan (b : BankOfKigali) (op : BankOp)
    (h1 : b._accountBalance ≠ .nan) (h2 : b._loanBalance ≠ .nan) :
    (b.step op).1._accountBalance ≠ .nan ∧ (b.step op).1._loanBalance ≠ .nan := by
  cases op with
  | setAcct n =>
    unfold BankOfKigali.step BankOfKigali.setAccountBalance
    by_cases hn : n.isFinite = true
    · simp [hn, h2, JSNum.ne_nan_of_isFinite hn]
    · simp [hn, h1, h2]
  | setLoan n =>
    unfold BankOfKigali.step BankOfKigali.setLoanBalance
    by_cases hn : n.isFinite = true
    · simp [hn, h1, JSNum.ne_nan_of_isFinite hn]
    · simp [hn, h1, h2]
  | deposit n =>
    unfold BankOfKigali.step BankOfKigali.deposit
    by_cases hneg : n.lt (.fin 0) = true
    · simp [hneg, h1, h2]
    · by_cases hn : n.isFinite = true
      · simp [hneg, hn, h2, JSNum.add_ne_nan h1 hn]
      · simp [hneg, hn, h1, h2]
  | withdraw n =>
    have key : ((b.withdraw n).1)._accountBalance ≠ .nan
        ∧ ((b.withdraw n).1)._loanBalance ≠ .nan := by
      unfold BankOfKigali.withdraw BankOfKigali.setAccountBalance
      by_cases hneg : n.lt (.fin 0) = true
      · simp [hneg, h1, h2]
      · by_cases hgt : b.accountBalance.lt n = true
        · simp [hneg, hgt, h1, h2]
        · by_cases hlt : n.lt b.accountBalance = true
          · by_cases hf : (b.accountBalance.sub n).isFinite = true
            · simp [hneg, hgt, hlt, hf, h2, JSNum.ne_nan_of_isFinite hf]
            · simp [hneg, hgt, hlt, hf, h1, h2]
          · simp [hneg, hgt, hlt, h1, h2]
    rcases hs : b.withdraw n with ⟨b2, o⟩
    rw [hs] at key
    cases o <;> simp [BankOfKigali.step, hs] <;> exact key

theorem run_preserves_ne_nan (ops : List BankOp) :
    ∀ b : BankOfKigali,
      b._accountBalance ≠ .nan → b._loanBalance ≠ .nan →
      ((BankOfKigali.run ops b)._accountBalance ≠ .nan
        ∧ (BankOfKigali.run ops b)._loanBalance ≠ .nan) := by
  induction ops with
  | nil => intro b h1 h2; exact ⟨h1, h2⟩
  | cons op ops ih =>
    intro b h1 h2
    have h := step_preserves_ne_nan b op h1 h2
    exact ih _ h.1 h.2

theorem setAccountBalance_throw_unchanged (b : BankOfKigali) (n : JSNum)
    (h : ((b.setAccountBalance n).2).isSome = true) : (b.setAccountBalance n).1 = b := by
  unfold BankOfKigali.setAccountBalance at h ⊢
  by_cases hn : n.isFinite = true <;> simp [hn] at h ⊢

theorem withdraw_threw_unchanged (b : BankOfKigali) (n : JSNum) (b2 : BankOfKigali)
    (e : String) (h : b.withdraw n = (b2, .threw e)) : b2 = b := by
  unfold BankOfKigali.withdraw at h
  by_cases hneg : n.lt (.fin 0) = true
  · simp [hneg] at h
  · by_cases hgt : b.accountBalance.lt n = true
    · simp [hneg, hgt] at h
    · by_cases hlt : n.lt b.accountBalance = true
      · simp only [hneg, hgt, hlt, Bool.false_eq_true, if_false, if_true] at h
        rcases hs : b.setAccountBalance (b.accountBalance.sub n) with ⟨b3, o⟩
        rw [hs] at h
        cases o with
        | none => simp at h
        | some msg =>
          simp only [Prod.mk.injEq, BankOfKigali.WithdrawOutcome.threw.injEq] at h
          have hb3 : (b.setAccountBalance (b.accountBalance.sub n)).1 = b :=
            setAccountBalance_throw_unchanged b _ (by rw [hs]; rfl)
          rw [hs] at hb3
          exact h.1 ▸ hb3
      · simp [hneg, hgt, hlt] at h

/-- Claim C7 counterexample: the always-finite invariant fails under
IEEE-754 double overflow: setting `accountBalance` to the representable
double `2 ^ 1023` and then depositing `2 ^ 1023` makes
`this._accountBalance += balance` overflow (exact sum `2 ^ 1024`, above
the overflow threshold), leaving `_accountBalance = Infinity` — the
`isFinite` guard in `deposit` checks the amount, not the sum. -/
theorem bankOfKigali_deposit_overflow :
    ((BankOfKigali.run
        [BankOp.setAcct (.fin (2 ^ 1023)), BankOp.deposit (.fin (2 ^ 1023))]
        BankOfKigali.init)._accountBalance).isFinite = false := by
  have hneg : JSNum.lt (.fin ((2 : ℚ) ^ 1023)) (.fin 0) = false := by
    simp only [JSNum.lt, decide_eq_false_iff_not, not_lt]
    positivity
  have hov : JSNum.add (.fin ((2 : ℚ) ^ 1023)) (.fin ((2 : ℚ) ^ 1023)) = .inf := by
    simp only [JSNum.add]
    rw [if_pos]
    unfold JSNum.overflowThreshold
    norm_num
  simp only [BankOfKigali.run, BankOfKigali.step, BankOfKigali.deposit,
    BankOfKigali.setAccountBalance, BankOfKigali.init, JSNum.isFinite, hneg, hov,
    Bool.false_eq_true, if_false, if_true]

/-- Claim C7 amended: starting from the freshly-constructed
`BankOfKigali`, every sequence of `deposit` / `withdraw` /
`accountBalance` / `loanBalance` operations keeps NaN out of both
private fields, and every operation that throws leaves the object
unchanged; the fields are, however, not always finite — a deposit whose
exact sum reaches the double overflow threshold drives
`_accountBalance` to Infinity. -/
theorem bankOfKigali_never_nan :
    (∀ ops : List BankOp,
      (BankOfKigali.run ops BankOfKigali.init)._accountBalance ≠ .nan
        ∧ (BankOfKigali.run ops BankOfKigali.init)._loanBalance ≠ .nan)
    ∧ (∀ (b : BankOfKigali) (op : BankOp),
      ((b.step op).2).isSome = true → (b.step op).1 = b) := by
  constructor
  · intro ops
    exact run_preserves_ne_nan ops BankOfKigali.init (by decide) (by decide)
  · intro b op h
    cases op with
    | setAcct n => exact setAccountBalance_throw_unchanged b n h
    | setLoan n =>
      unfold BankOfKigali.step BankOfKigali.setLoanBalance at h ⊢
      by_cases hn : n.isFinite = true <;> simp [hn] at h ⊢
    | deposit n =>
      unfold BankOfKigali.step BankOfKigali.deposit at h ⊢
      by_cases hneg : n.lt (.fin 0) = true
      · simp [hneg]
      · by_cases hn : n.isFinite = true <;> simp [hneg, hn] at h ⊢
    | withdraw n =>
      rcases hs : b.withdraw n with ⟨b2, o⟩
      cases o with
      | threw e =>
        have h1 : (b.step (BankOp.withdraw n)).1 = b2 := by
          simp [BankOfKigali.step, hs]
        rw [h1]
        exact withdraw_threw_unchanged b n b2 e hs
      | logNegative => simp [BankOfKigali.step, hs] at h
      | logInsufficient => simp [BankOfKigali.step, hs] at h
      | success => simp [BankOfKigali.step, hs] at h
      | silent => simp [BankOfKigali.step, hs] at h

/-- Claim C7 witness for the amended theorem: no NaN after a concrete
deposit/withdraw sequence, and a throwing operation
(`accountBalance = NaN`) leaving the object unchanged. -/
theorem bankOfKigali_never_nan_witness :
    ((BankOfKigali.run [BankOp.deposit (.fin 100500), BankOp.withdraw (.fin 500)]
        BankOfKigali.init)._accountBalance ≠ .nan)
    ∧ (BankOfKigali.init.step (BankOp.setAcct .nan)).1 = BankOfKigali.init :=
  ⟨(bankOfKigali_never_nan.1
      [BankOp.deposit (.fin 100500), BankOp.withdraw (.fin 500)]).1,
   bankOfKigali_never_nan.2 BankOfKigali.init (BankOp.setAcct .nan) (by decide)⟩

theorem runOps_count_inv {T : Type} (ops : List (StackOp T)) :
    ∀ (s : Stack T) (p q : Nat),
      (Stack.runOps ops s p q).1.items.length + (Stack.runOps ops s p q).2.2 + p
        = s.items.length + (Stack.runOps ops s p q).2.1 + q := by
  induction ops with
  | nil => intro s p q; simp [Stack.runOps]; omega
  | cons op ops ih =>
    intro s p q
    cases op with
    | push x =>
      have h := ih (s.push x) (p + 1) q
      have hlen : (s.push x).items.length = s.items.length + 1 := by simp [Stack.push]
      simp only [Stack.runOps]
      omega
    | pop =>
      rcases s with ⟨items⟩
      cases items with
      | nil =>
        have h := ih (Stack.mk []) p q
        simp only [Stack.runOps, Stack.pop]
        simpa using h
      | cons a rest =>
        have h := ih ⟨(a :: rest).dropLast⟩ p (q + 1)
        have hsome : ((Stack.mk (a :: rest)).pop).1.isSome = true := by
          simp [Stack.pop, List.getLast?_isSome]
        simp only [Stack.runOps, hsome, if_true]
        have hlen : ((a :: rest).dropLast).length + 1 = (a :: rest).length := by
          simp [List.length_dropLast]
        simp only [Stack.pop] at h ⊢
        omega
    | peek =>
      have h := ih s p q
      simpa [Stack.runOps, Stack.peek] using h

/-- Claim C5: the generic `Stack` is LIFO: `pop` right after `push x` on
state `s` returns `x` and restores `s`; `pop` and `peek` on an empty
stack return `undefined`; `peek` never changes the stack; and starting
from a fresh stack, `isEmpty` holds exactly when the number of pushes
performed equals the number of successful pops. -/
theorem stack_lifo :
    (∀ (T : Type) (s : Stack T) (x : T), (s.push x).pop = (some x, s))
    ∧ (∀ T : Type, (Stack.mk ([] : List T)).pop = (none, Stack.mk []))
    ∧ (∀ T : Type, ((Stack.mk ([] : List T)).peek).1 = none)
    ∧ (∀ (T : Type) (s : Stack T), (s.peek).2 = s)
    ∧ (∀ (T : Type) (ops : List (StackOp T)),
        (Stack.runOps ops (Stack.mk []) 0 0).1.isEmpty = true
          ↔ (Stack.runOps ops (Stack.mk []) 0 0).2.1
              = (Stack.runOps ops (Stack.mk []) 0 0).2.2) := by
  refine ⟨?_, ?_, ?_, ?_, ?_⟩
  · intro T s x
    rcases s with ⟨items⟩
    simp [Stack.push, Stack.pop, List.getLast?_concat, List.dropLast_concat]
  · intro T; simp [Stack.pop]
  · intro T; simp [Stack.peek]
  · intro T s; simp [Stack.peek]
  · intro T ops
    have h := runOps_count_inv ops (Stack.mk ([] : List T)) 0 0
    simp only [List.length_nil, Nat.add_zero, Nat.zero_add] at h
    simp only [Stack.isEmpty, beq_iff_eq]
    omega

theorem padLoop_flatten (padString : List Char) (needed : Nat) :
    ∀ (fuel : Nat) (rep : List Char), ∃ j : Nat,
      padLoop padString needed fuel rep = rep ++ (List.replicate j padString).flatten := by
  intro fuel
  induction fuel with
  | zero => intro rep; exact ⟨0, by simp [padLoop]⟩
  | succ f ih =>
    intro rep
    by_cases h : rep.length < needed
    · obtain ⟨j, hj⟩ := ih (rep ++ padString)
      refine ⟨j + 1, ?_⟩
      simp only [padLoop, if_pos h]
      rw [hj]
      simp [List.replicate_succ, List.append_assoc]
    · exact ⟨0, by simp [padLoop, if_neg h]⟩

theorem padLoop_length_ge (padString : List Char) (needed : Nat) :
    ∀ (fuel : Nat) (rep : List Char),
      needed ≤ rep.length + fuel * padString.length →
      needed ≤ (padLoop padString needed fuel rep).length := by
  intro fuel
  induction fuel with
  | zero => intro rep h; simpa [padLoop] using h
  | succ f ih =>
    intro rep h
    by_cases hlt : rep.length < needed
    · simp only [padLoop, if_pos hlt]
      apply ih
      have hs : (f + 1) * padString.length = f * padString.length + padString.length := by
        ring
      simp only [List.length_append]
      omega
    · simp only [padLoop, if_neg hlt]
      omega

theorem flatten_replicate_length (padString : List Char) (a : Nat) :
    ((List.replicate a padString).flatten).length = a * padString.length := by
  induction a with
  | zero => simp
  | succ n ih =>
    simp only [List.replicate_succ, List.flatten_cons, List.length_append, ih]
    ring

theorem take_join_replicate (padString : List Char) (n a b : Nat)
    (ha : n ≤ a * padString.length) (hab : a ≤ b) :
    ((List.replicate b padString).flatten).take n
      = ((List.replicate a padString).flatten).take n := by
  obtain ⟨c, rfl⟩ := Nat.exists_eq_add_of_le hab
  rw [List.replicate_add, List.flatten_append]
  exact List.take_append_of_le_length (by rw [flatten_replicate_length]; exact ha)

/-- Claim C1: `customPadStart("7", 3, "0")` returns `"007"`; in general,
for a non-empty pad string, a receiver shorter than `targetLength` comes
back left-padded with repetitions of `padString` truncated to the exact
needed length, and a receiver of length at least `targetLength` comes
back unchanged.  (With an empty `padString` and a short receiver the
while loop of the source never terminates, so the general statement here assumes a
non-empty `padString`.) -/
theorem customPadStart_spec :
    customPadStart [ '7' ] 3 [ '0' ] = [ '0', '0', '7' ]
    ∧ ∀ (str : List Char) (targetLength : Nat) (padString : List Char),
        padString ≠ [] →
        (str.length < targetLength →
          customPadStart str targetLength padString
            = ((List.replicate targetLength padString).flatten).take
                (targetLength - str.length) ++ str)
        ∧ (targetLength ≤ str.length →
            customPadStart str targetLength padString = str) := by
  constructor
  · decide
  · intro str targetLength padString hpad
    have hpadpos : 0 < padString.length := List.length_pos.mpr hpad
    constructor
    · intro hlt
      have hnle : ¬targetLength ≤ str.length := by omega
      simp only [customPadStart, if_neg hnle]
      congr 1
      obtain ⟨j, hj⟩ :=
        padLoop_flatten padString (targetLength - str.length) (targetLength - str.length) []
      have hfuel : targetLength - str.length
          ≤ ([] : List Char).length + (targetLength - str.length) * padString.length := by
        simp only [List.length_nil, Nat.zero_add]
        exact Nat.le_mul_of_pos_right _ hpadpos
      have hlen := padLoop_length_ge padString (targetLength - str.length)
        (targetLength - str.length) [] hfuel
      rw [hj] at hlen
      simp only [List.nil_append] at hj hlen
      rw [flatten_replicate_length] at hlen
      rw [hj]
      rcases Nat.le_total j targetLength with hle | hle
      · exact (take_join_replicate padString (targetLength - str.length) j targetLength
          hlen hle).symm
      · have hta : targetLength - str.length ≤ targetLength * padString.length :=
          le_trans (Nat.sub_le _ _) (Nat.le_mul_of_pos_right _ hpadpos)
        exact take_join_replicate padString (targetLength - str.length) targetLength j
          hta hle
    · intro hge
      simp [customPadStart, if_pos hge]

/-- Claim C1 witness: the general statement applied to the second
demo call of the source, `"Mucyo".customPadStart(10, "-")`. -/
theorem customPadStart_spec_witness :
    [ '-' ] ≠ ([] : List Char)
    ∧ customPadStart [ 'M', 'u', 'c', 'y', 'o' ] 10 [ '-' ]
        = ((List.replicate 10 [ '-' ]).flatten).take
            (10 - [ 'M', 'u', 'c', 'y', 'o' ].length) ++ [ 'M', 'u', 'c', 'y', 'o' ] :=
  ⟨by decide, (customPadStart_spec.2 [ 'M', 'u', 'c', 'y', 'o' ] 10 [ '-' ]
      (by decide)).1 (by decide)⟩

/-- Claim C8 counterexample: the `FleetManager` / `Vehicle` class
hierarchy is not under 40 lines of source code: already the two named
classes together span 43 lines, and the whole hierarchy (with the
concrete `DeliveryTruck` and `DeliveryDrone` classes) spans 109 lines. -/
theorem vehicleHierarchy_not_under_40 :
    40 ≤ (vehicleSource ++ fleetManagerSource).length
    ∧ 40 ≤ (vehicleSource ++ deliveryTruckSource ++ deliveryDroneSource
        ++ fleetManagerSource).length := by
  constructor <;> decide

/-- Claim C8 amended: `PermissionManager` (17 lines), `Stack` (19 lines)
and each individual class of the vehicle hierarchy — `Vehicle` (23),
`DeliveryTruck` (33), `DeliveryDrone` (33), `FleetManager` (20) — is
under 40 lines of source code. -/
theorem classes_each_under_40 :
    permissionManagerSource.length < 40
    ∧ stackSource.length < 40
    ∧ vehicleSource.length < 40
    ∧ deliveryTruckSource.length < 40
    ∧ deliveryDroneSource.length < 40
    ∧ fleetManagerSource.length < 40 := by
  refine ⟨?_, ?_, ?_, ?_, ?_, ?_⟩ <;> decide
